import Mathlib

/-!
# MIDIVibes — verification of the envelope-trigger core

Shallow embedding of `src/MIDIVibes.ino`: the per-channel envelope trigger
(`do_channel`), the sustain-pedal falling-edge bulk release and the poll
cycle (`loop`), together with theorems about the claims of the design
specification.

Machine integers are modelled as `Nat`.  The C struct `pad_t` packs its
fields into bit-fields (`active : 1`, `note : 7`, `minAmplitude : 10`,
`curAmplitude : 10`); an assignment of the ADC reading into the 10-bit
`curAmplitude` field is therefore modelled with an explicit `% 1024`.
`analogRead` yields values in `0..1023` on the target platform, so theorems
that depend on the stored value being the sample itself carry an explicit
`≤ 1023` bound.
-/

namespace MidiVibes

/-- `const uint8_t ARDUINO_NUMBER = 0` — selects which column of the pad
table this unit scans. -/
def ARDUINO_NUMBER : Nat := 0

/-- `const bool velocitySensitive = false` — amplitude-proportional velocity
is computed but disabled. -/
def velocitySensitive : Bool := false

/-- `const uint32_t minAmplitude = 30` — the trigger threshold used for every
pad in the table. -/
def minAmplitude : Nat := 30

/-- `const uint32_t curAmplitude = minAmplitude` — initial value of the
decay-tracking field of every pad. -/
def curAmplitude : Nat := minAmplitude

/-- `const uint8_t MIDI_CHANNEL = 0`. -/
def MIDI_CHANNEL : Nat := 0

/-- Arduino `constrain(amt, low, high)`. -/
def constrain (amt low high : Nat) : Nat :=
  if amt < low then low else if amt > high then high else amt

/-- Arduino `map(x, in_min, in_max, out_min, out_max)` (integer division;
all arguments are non-negative at the call site in `do_channel`). -/
def map (x inMin inMax outMin outMax : Nat) : Nat :=
  (x - inMin) * (outMax - outMin) / (inMax - inMin) + outMin

/-- One 3-byte message written by `midi_send` (status, pitch, velocity).
All call sites pass byte-sized arguments (`0x90`, a 7-bit note, `0x7F` or
`0`), so the `uint8_t` truncation of the C parameters is the identity. -/
structure MidiEvent where
  status : Nat
  pitch : Nat
  velocity : Nat
deriving DecidableEq, Repr

/-- `midi_send(midi_message, pitch, midi_velocity)` — emits one 3-byte
message with the channel number folded into the status byte. -/
def midi_send (midi_message pitch midi_velocity : Nat) : MidiEvent :=
  { status := midi_message + MIDI_CHANNEL, pitch := pitch,
    velocity := midi_velocity }

/-- A message is a note-on when it has the note-on status byte and a
non-zero velocity (the sketch emits note-offs as velocity-0 note-ons). -/
def isNoteOn (e : MidiEvent) : Bool :=
  e.status == 0x90 + MIDI_CHANNEL && e.velocity != 0

/-- A message is a note-off when it has the note-on status byte and
velocity 0, the encoding `do_channel` and the pedal sweep use. -/
def isNoteOff (e : MidiEvent) : Bool :=
  e.status == 0x90 + MIDI_CHANNEL && e.velocity == 0

/-- `struct pad_t` — one channel's state.  Bit-field widths in the source:
`active : 1`, `note : 7`, `minAmplitude : 10`, `unused1 : 7`,
`curAmplitude : 10`, `unused2 : 10`. -/
structure Pad where
  active : Bool
  note : Nat
  minAmplitude : Nat
  unused1 : Nat
  curAmplitude : Nat
  unused2 : Nat
deriving DecidableEq, Repr

/-- One initializer entry of the `pads` table:
`{ false, note, minAmplitude, 0, curAmplitude }` (trailing `unused2` is
zero-initialized). -/
def mkPad (note : Nat) : Pad :=
  { active := false, note := note, minAmplitude := minAmplitude,
    unused1 := 0, curAmplitude := curAmplitude, unused2 := 0 }

/-- The global `pads` table: 16 rows (one per analog pin), 3 columns (one
per Arduino); column 0 = low naturals, column 1 = accidentals, column 2 =
high naturals (all note 0 placeholders in this source). -/
def pads : List (List Pad) :=
  [ [mkPad 53, mkPad 54, mkPad 0]
  , [mkPad 55, mkPad 56, mkPad 0]
  , [mkPad 57, mkPad 58, mkPad 0]
  , [mkPad 59, mkPad 61, mkPad 0]
  , [mkPad 60, mkPad 63, mkPad 0]
  , [mkPad 62, mkPad 66, mkPad 0]
  , [mkPad 64, mkPad 68, mkPad 0]
  , [mkPad 65, mkPad 70, mkPad 0]
  , [mkPad 67, mkPad 73, mkPad 0]
  , [mkPad 69, mkPad 75, mkPad 0]
  , [mkPad 71, mkPad 78, mkPad 0]
  , [mkPad 72, mkPad 80, mkPad 0]
  , [mkPad 74, mkPad 82, mkPad 0]
  , [mkPad 76, mkPad 85, mkPad 0]
  , [mkPad 77, mkPad 87, mkPad 0]
  , [mkPad 79, mkPad 0, mkPad 0] ]

/-- `void do_channel(pinADC, pad, iROW)` — the envelope trigger for one
channel.  `analogValue` is the `analogRead` result for this channel's pin;
`curPedalState` is the global pedal flag as it stands when the channel loop
runs.  Returns the updated pad and the emitted messages (at most one). -/
def do_channel (analogValue : Nat) (pad : Pad) (curPedalState : Bool) :
    Pad × List MidiEvent :=
  let constrainedAnalogValue := constrain analogValue 0 300
  let velocity := map constrainedAnalogValue 0 300 0 127
  if analogValue > pad.minAmplitude then
    if !pad.active then
      let pad := { pad with active := true,
                            curAmplitude := analogValue % 1024 }
      let velocity := if !velocitySensitive then 0x7F else velocity
      (pad, [midi_send 0x90 pad.note velocity])
    else
      (pad, [])
  else if pad.active then
    let pad := if analogValue < pad.curAmplitude then
                 { pad with curAmplitude := analogValue % 1024 }
               else pad
    if analogValue ≤ pad.minAmplitude then
      let pad := { pad with curAmplitude := pad.minAmplitude % 1024 }
      if !curPedalState then
        ({ pad with active := false }, [midi_send 0x90 pad.note 0])
      else
        (pad, [])
    else
      (pad, [])
  else
    (pad, [])

/-- `const int COLUMN = ARDUINO_NUMBER` — the one column of the pad table
this unit evaluates. -/
def COLUMN : Nat := ARDUINO_NUMBER

/-- The body of the pedal-release sweep for one pad
(`if (pad.active) { pad.active = false; midi_send(0x90, pad.note, 0); }`). -/
def sweepPad (pad : Pad) : Pad × List MidiEvent :=
  if pad.active then
    ({ pad with active := false }, [midi_send 0x90 pad.note 0])
  else
    (pad, [])

/-- The pedal-release sweep applied to one row: only `pads[iROW][COLUMN]`
is touched. -/
def sweepRow (row : List Pad) : List Pad × List MidiEvent :=
  match row[COLUMN]? with
  | none => (row, [])
  | some pad =>
    let r := sweepPad pad
    (row.set COLUMN r.1, r.2)

/-- The pedal-release `for (iROW ...)` loop over all rows, ascending. -/
def sweepRows : List (List Pad) → List (List Pad) × List MidiEvent
  | [] => ([], [])
  | row :: rest =>
    let r := sweepRow row
    let rs := sweepRows rest
    (r.1 :: rs.1, r.2 ++ rs.2)

/-- One iteration of the channel loop:
`do_channel(pinsADC[iROW], pads[iROW][COLUMN], iROW)`. -/
def doChannelRow (analogValue : Nat) (curPedalState : Bool)
    (row : List Pad) : List Pad × List MidiEvent :=
  match row[COLUMN]? with
  | none => (row, [])
  | some pad =>
    let r := do_channel analogValue pad curPedalState
    (row.set COLUMN r.1, r.2)

/-- The channel `for (iROW ...)` loop, ascending from row index `i`;
`samples` models `analogRead` on `pinsADC[iROW]` for this cycle. -/
def doChannels (samples : Nat → Nat) (curPedalState : Bool) :
    Nat → List (List Pad) → List (List Pad) × List MidiEvent
  | _, [] => ([], [])
  | i, row :: rest =>
    let r := doChannelRow (samples i) curPedalState row
    let rs := doChannels samples curPedalState (i + 1) rest
    (r.1 :: rs.1, r.2 ++ rs.2)

/-- The mutable globals of the sketch: `bool curPedalState` and the `pads`
table. -/
structure SysState where
  curPedalState : Bool
  pads : List (List Pad)
deriving DecidableEq, Repr

/-- One invocation of `loop()`: read the pedal (`newPedalState` is the
`checkFootSwitchOnD2()` result), run the falling-edge bulk release, store
the new pedal state, then evaluate every channel in ascending row order
with the stored (new) pedal state. -/
def loopCycle (newPedalState : Bool) (samples : Nat → Nat)
    (st : SysState) : SysState × List MidiEvent :=
  let sw := if st.curPedalState && !newPedalState then sweepRows st.pads
            else (st.pads, [])
  let ch := doChannels samples newPedalState 0 sw.1
  ({ curPedalState := newPedalState, pads := ch.1 }, sw.2 ++ ch.2)

/-- Any number of consecutive `loop()` invocations; each cycle's input is
the pedal level and the per-row samples for that cycle. -/
def run (st : SysState) : List (Bool × (Nat → Nat)) →
    SysState × List MidiEvent
  | [] => (st, [])
  | (p, s) :: rest =>
    let r := loopCycle p s st
    let rr := run r.1 rest
    (rr.1, r.2 ++ rr.2)

/-- The program state after `setup()`: `curPedalState = false` and the
static `pads` table. -/
def initState : SysState := { curPedalState := false, pads := pads }

/-- `do_channel` with the decay-minimum tracking assignment
(`if (analogValue < pad.curAmplitude) pad.curAmplitude = analogValue;`)
removed; used only to compare observable behaviour with `do_channel`. -/
def do_channel_noTrack (analogValue : Nat) (pad : Pad)
    (curPedalState : Bool) : Pad × List MidiEvent :=
  let constrainedAnalogValue := constrain analogValue 0 300
  let velocity := map constrainedAnalogValue 0 300 0 127
  if analogValue > pad.minAmplitude then
    if !pad.active then
      let pad := { pad with active := true,
                            curAmplitude := analogValue % 1024 }
      let velocity := if !velocitySensitive then 0x7F else velocity
      (pad, [midi_send 0x90 pad.note velocity])
    else
      (pad, [])
  else if pad.active then
    if analogValue ≤ pad.minAmplitude then
      let pad := { pad with curAmplitude := pad.minAmplitude % 1024 }
      if !curPedalState then
        ({ pad with active := false }, [midi_send 0x90 pad.note 0])
      else
        (pad, [])
    else
      (pad, [])
  else
    (pad, [])

section DoChannelCases

variable (p : Pad) (s : Nat) (held : Bool)

lemma do_channel_of_inactive_of_gt (ha : p.active = false)
    (hs : p.minAmplitude < s) :
    do_channel s p held
      = ({ p with active := true, curAmplitude := s % 1024 },
         [midi_send 0x90 p.note 0x7F]) := by
  simp [do_channel, ha, hs, velocitySensitive]

lemma do_channel_of_active_of_gt (ha : p.active = true)
    (hs : p.minAmplitude < s) :
    do_channel s p held = (p, []) := by
  simp [do_channel, ha, hs]

lemma do_channel_of_inactive_of_le (ha : p.active = false)
    (hs : s ≤ p.minAmplitude) :
    do_channel s p held = (p, []) := by
  have hngt : ¬ s > p.minAmplitude := by omega
  simp [do_channel, ha, hngt]

lemma do_channel_of_active_of_le (ha : p.active = true)
    (hs : s ≤ p.minAmplitude) :
    do_channel s p held
      = if held then
          ({ p with curAmplitude := p.minAmplitude % 1024 }, [])
        else
          ({ p with active := false,
                    curAmplitude := p.minAmplitude % 1024 },
           [midi_send 0x90 p.note 0]) := by
  have hngt : ¬ s > p.minAmplitude := by omega
  cases held <;>
    simp only [do_channel, hngt, ha, if_false, if_true, Bool.not_true,
      Bool.not_false, ite_false, ite_true] <;>
    split <;> simp [hs, ha]

end DoChannelCases

lemma do_channel_eq_noTrack (q : Pad) (t : Nat) (h2 : Bool) :
    do_channel t q h2 = do_channel_noTrack t q h2 := by
  by_cases hgt : t > q.minAmplitude
  · simp [do_channel, do_channel_noTrack, hgt]
  · have hle : t ≤ q.minAmplitude := by omega
    cases hqa : q.active
    · simp [do_channel, do_channel_noTrack, hgt, hqa]
    · simp only [do_channel, do_channel_noTrack, hgt, hqa, if_false,
        if_true, Bool.not_true, Bool.not_false, ite_false, ite_true]
      split <;> simp [hle, hqa]

/-- **C4**: while `held` is true, an active channel whose sample is at or
below its trigger threshold stays active and emits nothing on the
per-sample path; once `held` is false the same situation releases the
channel and emits the NoteOff. -/
theorem hold_suppresses_release (p : Pad) (s : Nat)
    (ha : p.active = true) (hs : s ≤ p.minAmplitude) :
    ((do_channel s p true).1.active = true ∧ (do_channel s p true).2 = [])
    ∧ ((do_channel s p false).1.active = false
       ∧ (do_channel s p false).2 = [midi_send 0x90 p.note 0]) := by
  rw [do_channel_of_active_of_le p s true ha hs,
      do_channel_of_active_of_le p s false ha hs]
  simp [ha]

theorem hold_suppresses_release_witness :
    ((do_channel 5 { mkPad 53 with active := true, curAmplitude := 45 }
        true).1.active = true
     ∧ (do_channel 5 { mkPad 53 with active := true, curAmplitude := 45 }
          true).2 = [])
    ∧ ((do_channel 5 { mkPad 53 with active := true, curAmplitude := 45 }
          false).1.active = false
       ∧ (do_channel 5 { mkPad 53 with active := true, curAmplitude := 45 }
            false).2 = [midi_send 0x90 53 0]) :=
  hold_suppresses_release
    { mkPad 53 with active := true, curAmplitude := 45 } 5 rfl (by decide)

/-- **C5**: a sample strictly above the threshold activates an inactive
channel, records the sample as the decay floor, and emits exactly one
NoteOn carrying the channel's note and the fixed maximum velocity `0x7F`;
on an already-active channel it emits nothing, so feeding the same
above-threshold sample twice never yields a second NoteOn. -/
theorem trigger_above_threshold (p : Pad) (s : Nat) (held : Bool)
    (hgt : p.minAmplitude < s) (hle : s ≤ 1023) :
    (p.active = false →
      do_channel s p held
        = ({ p with active := true, curAmplitude := s },
           [midi_send 0x90 p.note 0x7F]))
    ∧ (p.active = true → do_channel s p held = (p, []))
    ∧ (do_channel s (do_channel s p held).1 held).2 = [] := by
  have hmod : s % 1024 = s := Nat.mod_eq_of_lt (by omega)
  refine ⟨fun ha => ?_, fun ha => ?_, ?_⟩
  · rw [do_channel_of_inactive_of_gt p s held ha hgt, hmod]
  · exact do_channel_of_active_of_gt p s held ha hgt
  · cases ha : p.active with
    | false =>
        simp [do_channel_of_inactive_of_gt p s held ha hgt,
          do_channel_of_active_of_gt
            { p with active := true, curAmplitude := s % 1024 } s held rfl
            hgt]
    | true =>
        simp [do_channel_of_active_of_gt p s held ha hgt]

theorem trigger_above_threshold_witness :
    do_channel 45 (mkPad 53) false
      = ({ mkPad 53 with active := true, curAmplitude := 45 },
         [midi_send 0x90 53 0x7F]) :=
  (trigger_above_threshold (mkPad 53) 45 false (by decide) (by decide)).1
    rfl

/-- Samples for the C6 scenario: value `v` on channel 0's pin, all other
pins silent. -/
def scenarioSamples (v : Nat) : Nat → Nat := fun i => if i = 0 then v else 0

/-- Cycle-by-cycle states and events of the C6 scenario run. -/
def scenario1 : SysState × List MidiEvent :=
  loopCycle false (scenarioSamples 10) initState

def scenario2 : SysState × List MidiEvent :=
  loopCycle false (scenarioSamples 45) scenario1.1

def scenario3 : SysState × List MidiEvent :=
  loopCycle false (scenarioSamples 45) scenario2.1

def scenario4 : SysState × List MidiEvent :=
  loopCycle false (scenarioSamples 5) scenario3.1

def scenario5 : SysState × List MidiEvent :=
  loopCycle false (scenarioSamples 5) scenario4.1

/-- **C6**: channel 0 (`note 53`, threshold 30), samples
`[10, 45, 45, 5, 5]` on its pin (all other pins silent), pedal up
throughout: exactly one NoteOn(53, 0x7F) at cycle 2 and one NoteOff(53)
at cycle 4, no events at cycles 1, 3 and 5. -/
theorem scenario_channel0_sequence :
    scenario1.2 = [] ∧ scenario2.2 = [midi_send 0x90 53 0x7F]
      ∧ scenario3.2 = [] ∧ scenario4.2 = [midi_send 0x90 53 0]
      ∧ scenario5.2 = [] := by
  decide

/-- **C8**: on a channel that is active before and stays within the
bit-field ranges, a per-channel update never increases `curAmplitude`
(the decay floor); and while a channel is inactive its `curAmplitude`
value is irrelevant to behaviour — the emitted events and the resulting
`active` flag do not depend on it. -/
theorem decay_floor_monotone_while_active (p : Pad) (s : Nat)
    (held : Bool) (ha : p.active = true)
    (hlo : p.minAmplitude ≤ p.curAmplitude)
    (hhi : p.curAmplitude ≤ 1023) :
    (do_channel s p held).1.curAmplitude ≤ p.curAmplitude
    ∧ (∀ (q : Pad) (c t : Nat) (h2 : Bool), q.active = false →
        (do_channel t { q with curAmplitude := c } h2).2
            = (do_channel t q h2).2
        ∧ (do_channel t { q with curAmplitude := c } h2).1.active
            = (do_channel t q h2).1.active) := by
  constructor
  · rcases Nat.lt_or_ge p.minAmplitude s with hgt | hge
    · rw [do_channel_of_active_of_gt p s held ha hgt]
    · have hm : p.minAmplitude % 1024 = p.minAmplitude :=
        Nat.mod_eq_of_lt (by omega)
      rw [do_channel_of_active_of_le p s held ha hge]
      cases held <;> simpa [hm] using hlo
  · intro q c t h2 hq
    rcases Nat.lt_or_ge q.minAmplitude t with hgt | hge
    · rw [do_channel_of_inactive_of_gt { q with curAmplitude := c } t h2
            hq hgt,
          do_channel_of_inactive_of_gt q t h2 hq hgt]
      exact ⟨rfl, rfl⟩
    · rw [do_channel_of_inactive_of_le { q with curAmplitude := c } t h2
            hq hge,
          do_channel_of_inactive_of_le q t h2 hq hge]
      exact ⟨rfl, rfl⟩

theorem decay_floor_monotone_while_active_witness :
    (do_channel 5 { mkPad 53 with active := true, curAmplitude := 45 }
        false).1.curAmplitude
      ≤ (45 : Nat)
    ∧ (do_channel 100 { mkPad 53 with curAmplitude := 7 } false).2
        = (do_channel 100 (mkPad 53) false).2 :=
  ⟨(decay_floor_monotone_while_active
      { mkPad 53 with active := true, curAmplitude := 45 } 5 false rfl
      (by decide) (by decide)).1,
   ((decay_floor_monotone_while_active
      { mkPad 53 with active := true, curAmplitude := 45 } 5 false rfl
      (by decide) (by decide)).2 (mkPad 53) 7 100 false rfl).1⟩

/-- **C10**: after a per-channel update of an active channel with a
sample at or below the threshold, `curAmplitude` equals the threshold
exactly (whatever the pedal state), because the clamp overwrites the
just-tracked minimum; and the decay-minimum tracking branch has no
observable effect at all — `do_channel` coincides with the variant that
omits it on every input. -/
theorem decay_floor_clamped_to_threshold (p : Pad) (s : Nat) (held : Bool)
    (ha : p.active = true) (hs : s ≤ p.minAmplitude)
    (hw : p.minAmplitude ≤ 1023) :
    (do_channel s p held).1.curAmplitude = p.minAmplitude
    ∧ (∀ (q : Pad) (t : Nat) (h2 : Bool),
        do_channel t q h2 = do_channel_noTrack t q h2) := by
  have hm : p.minAmplitude % 1024 = p.minAmplitude :=
    Nat.mod_eq_of_lt (by omega)
  constructor
  · rw [do_channel_of_active_of_le p s held ha hs]
    cases held <;> simp [hm]
  · exact do_channel_eq_noTrack

theorem decay_floor_clamped_to_threshold_witness :
    (do_channel 5 { mkPad 53 with active := true, curAmplitude := 45 }
        true).1.curAmplitude = (30 : Nat)
    ∧ do_channel 5 { mkPad 53 with active := true, curAmplitude := 45 }
        true
      = do_channel_noTrack 5
          { mkPad 53 with active := true, curAmplitude := 45 } true :=
  ⟨(decay_floor_clamped_to_threshold
      { mkPad 53 with active := true, curAmplitude := 45 } 5 true rfl
      (by decide) (by decide)).1,
   (decay_floor_clamped_to_threshold
      { mkPad 53 with active := true, curAmplitude := 45 } 5 true rfl
      (by decide) (by decide)).2
     { mkPad 53 with active := true, curAmplitude := 45 } 5 true⟩

/-- The two mechanisms that ever touch one pad in a cycle, in source
order: the optional pedal-release sweep (`sw` says whether this cycle's
falling edge reaches the pad) followed by nothing — this is the sweep
phase alone. -/
def padStep (p : Pad) (sw : Bool) : Pad × List MidiEvent :=
  if sw then sweepPad p else (p, [])

/-- The sequence of states one pad passes through over a run: each cycle
contributes the post-sweep state and the post-`do_channel` state, in that
order.  Each cycle's input is (falling edge reaches the pad, sample,
stored pedal state). -/
def padTrace : Pad → List (Bool × Nat × Bool) → List Pad
  | _, [] => []
  | p, (sw, s, h) :: rest =>
    (padStep p sw).1
      :: (do_channel s (padStep p sw).1 h).1
      :: padTrace (do_channel s (padStep p sw).1 h).1 rest

/-- The messages one pad emits over a run, in emission order. -/
def padEvents : Pad → List (Bool × Nat × Bool) → List MidiEvent
  | _, [] => []
  | p, (sw, s, h) :: rest =>
    (padStep p sw).2 ++ (do_channel s (padStep p sw).1 h).2
      ++ padEvents (do_channel s (padStep p sw).1 h).1 rest

/-- Number of false-to-true edges in a flag sequence starting from `b`
(the claim's inactive-to-active transitions). -/
def countRises (b : Bool) : List Bool → Nat
  | [] => 0
  | c :: rest => (if !b && c then 1 else 0) + countRises c rest

/-- Number of true-to-false edges in a flag sequence starting from `b`
(the claim's active-to-inactive transitions). -/
def countFalls (b : Bool) : List Bool → Nat
  | [] => 0
  | c :: rest => (if b && !c then 1 else 0) + countFalls c rest

lemma do_channel_countP_noteOn (s : Nat) (p : Pad) (h : Bool) :
    ((do_channel s p h).2).countP isNoteOn
      = if !p.active && (do_channel s p h).1.active then 1 else 0 := by
  rcases Nat.lt_or_ge p.minAmplitude s with hgt | hge <;>
    cases hpa : p.active
  · rw [do_channel_of_inactive_of_gt p s h hpa hgt]
    simp [isNoteOn, midi_send, hpa]
  · rw [do_channel_of_active_of_gt p s h hpa hgt]
    simp [hpa]
  · rw [do_channel_of_inactive_of_le p s h hpa hge]
    simp [hpa]
  · rw [do_channel_of_active_of_le p s h hpa hge]
    cases h <;> simp [isNoteOn, midi_send, hpa]

lemma do_channel_countP_noteOff (s : Nat) (p : Pad) (h : Bool) :
    ((do_channel s p h).2).countP isNoteOff
      = if p.active && !(do_channel s p h).1.active then 1 else 0 := by
  rcases Nat.lt_or_ge p.minAmplitude s with hgt | hge <;>
    cases hpa : p.active
  · rw [do_channel_of_inactive_of_gt p s h hpa hgt]
    simp [isNoteOff, midi_send, hpa]
  · rw [do_channel_of_active_of_gt p s h hpa hgt]
    simp [hpa]
  · rw [do_channel_of_inactive_of_le p s h hpa hge]
    simp [hpa]
  · rw [do_channel_of_active_of_le p s h hpa hge]
    cases h <;> simp [isNoteOff, midi_send, hpa]

lemma padStep_countP_noteOn (p : Pad) (sw : Bool) :
    ((padStep p sw).2).countP isNoteOn
      = if !p.active && (padStep p sw).1.active then 1 else 0 := by
  cases sw <;> cases hpa : p.active <;>
    simp [padStep, sweepPad, hpa, isNoteOn, midi_send]

lemma padStep_countP_noteOff (p : Pad) (sw : Bool) :
    ((padStep p sw).2).countP isNoteOff
      = if p.active && !(padStep p sw).1.active then 1 else 0 := by
  cases sw <;> cases hpa : p.active <;>
    simp [padStep, sweepPad, hpa, isNoteOff, midi_send]

/-- **C2**: over any run, the NoteOn messages a channel emits are in
exact one-to-one correspondence with its inactive-to-active transitions,
and its NoteOff messages with its active-to-inactive transitions —
counted over the full state trace (sweep phase and per-sample phase),
so nothing is duplicated and nothing is skipped. -/
theorem events_match_transitions (steps : List (Bool × Nat × Bool))
    (p : Pad) :
    (padEvents p steps).countP isNoteOn
        = countRises p.active ((padTrace p steps).map Pad.active)
    ∧ (padEvents p steps).countP isNoteOff
        = countFalls p.active ((padTrace p steps).map Pad.active) := by
  induction steps generalizing p with
  | nil => simp [padEvents, padTrace, countRises, countFalls]
  | cons step rest ih =>
    obtain ⟨sw, s, h⟩ := step
    simp only [padEvents, padTrace, List.map_cons, countRises, countFalls,
      List.countP_append]
    constructor
    · rw [padStep_countP_noteOn p sw,
        do_channel_countP_noteOn s (padStep p sw).1 h,
        (ih (do_channel s (padStep p sw).1 h).1).1]
      simp [Nat.add_assoc]
    · rw [padStep_countP_noteOff p sw,
        do_channel_countP_noteOff s (padStep p sw).1 h,
        (ih (do_channel s (padStep p sw).1 h).1).2]
      simp [Nat.add_assoc]

lemma do_channel_fields (s : Nat) (p : Pad) (h : Bool) :
    (do_channel s p h).1.note = p.note
    ∧ (do_channel s p h).1.minAmplitude = p.minAmplitude
    ∧ (do_channel s p h).1.unused1 = p.unused1
    ∧ (do_channel s p h).1.unused2 = p.unused2 := by
  rcases Nat.lt_or_ge p.minAmplitude s with hgt | hge <;>
    cases hpa : p.active
  · rw [do_channel_of_inactive_of_gt p s h hpa hgt]
    exact ⟨rfl, rfl, rfl, rfl⟩
  · rw [do_channel_of_active_of_gt p s h hpa hgt]
    exact ⟨rfl, rfl, rfl, rfl⟩
  · rw [do_channel_of_inactive_of_le p s h hpa hge]
    exact ⟨rfl, rfl, rfl, rfl⟩
  · rw [do_channel_of_active_of_le p s h hpa hge]
    cases h <;> exact ⟨rfl, rfl, rfl, rfl⟩

lemma sweepPad_fields (p : Pad) :
    (sweepPad p).1.note = p.note
    ∧ (sweepPad p).1.minAmplitude = p.minAmplitude
    ∧ (sweepPad p).1.unused1 = p.unused1
    ∧ (sweepPad p).1.curAmplitude = p.curAmplitude
    ∧ (sweepPad p).1.unused2 = p.unused2 := by
  cases hpa : p.active <;> simp [sweepPad, hpa]

lemma do_channel_pitch (s : Nat) (p : Pad) (h : Bool) :
    ∀ e ∈ (do_channel s p h).2, e.pitch = p.note := by
  intro e he
  rcases Nat.lt_or_ge p.minAmplitude s with hgt | hge <;>
    cases hpa : p.active
  · rw [do_channel_of_inactive_of_gt p s h hpa hgt] at he
    simp at he
    rw [he]
    rfl
  · rw [do_channel_of_active_of_gt p s h hpa hgt] at he
    simp at he
  · rw [do_channel_of_inactive_of_le p s h hpa hge] at he
    simp at he
  · rw [do_channel_of_active_of_le p s h hpa hge] at he
    cases h with
    | false =>
        simp at he
        rw [he]
        rfl
    | true => simp at he

lemma sweepPad_pitch (p : Pad) :
    ∀ e ∈ (sweepPad p).2, e.pitch = p.note := by
  cases hpa : p.active <;> simp [sweepPad, hpa, midi_send]

/-- The per-channel event blocks of the channel loop: block `k` is the
list of messages `do_channel` emits for row `i + k`. -/
def chanEventBlocks (samples : Nat → Nat) (curPedalState : Bool) :
    Nat → List (List Pad) → List (List MidiEvent)
  | _, [] => []
  | i, row :: rest =>
    (doChannelRow (samples i) curPedalState row).2
      :: chanEventBlocks samples curPedalState (i + 1) rest

lemma doChannels_events (samples : Nat → Nat) (held : Bool) :
    ∀ (i : Nat) (table : List (List Pad)),
      (doChannels samples held i table).2
        = (chanEventBlocks samples held i table).flatten := by
  intro i table
  induction table generalizing i with
  | nil => simp [doChannels, chanEventBlocks]
  | cons row rest ih => simp [doChannels, chanEventBlocks, ih]

lemma chanEventBlocks_getElem? (samples : Nat → Nat) (held : Bool) :
    ∀ (table : List (List Pad)) (i k : Nat),
      (chanEventBlocks samples held i table)[k]?
        = (table[k]?).map
            (fun row => (doChannelRow (samples (i + k)) held row).2) := by
  intro table
  induction table with
  | nil => intro i k; simp [chanEventBlocks]
  | cons row rest ih =>
    intro i k
    cases k with
    | zero => simp [chanEventBlocks]
    | succ k =>
        have harith : i + 1 + k = i + (k + 1) := by omega
        simp [chanEventBlocks, ih (i + 1) k, harith]

lemma doChannels_getElem? (samples : Nat → Nat) (held : Bool) :
    ∀ (table : List (List Pad)) (i k : Nat),
      ((doChannels samples held i table).1)[k]?
        = (table[k]?).map
            (fun row => (doChannelRow (samples (i + k)) held row).1) := by
  intro table
  induction table with
  | nil => intro i k; simp [doChannels]
  | cons row rest ih =>
    intro i k
    cases k with
    | zero => simp [doChannels]
    | succ k =>
        have harith : i + 1 + k = i + (k + 1) := by omega
        simp [doChannels, ih (i + 1) k, harith]

lemma sweepRows_getElem? :
    ∀ (table : List (List Pad)) (k : Nat),
      ((sweepRows table).1)[k]?
        = (table[k]?).map (fun row => (sweepRow row).1) := by
  intro table
  induction table with
  | nil => intro k; simp [sweepRows]
  | cons row rest ih =>
    intro k
    cases k with
    | zero => simp [sweepRows]
    | succ k => simp [sweepRows, ih k]

/-- **C7**: one `loop()` invocation stores the new pedal level, its event
list is the bulk-release sweep output followed by the per-channel blocks
joined in ascending row order, and block `k` is computed by `do_channel`
from the post-sweep row `k`, that row's own sample, and the updated pedal
state. -/
theorem cycle_order_hold_then_channels (new : Bool)
    (samples : Nat → Nat) (st : SysState) :
    ((loopCycle new samples st).1.curPedalState = new)
    ∧ (loopCycle new samples st).2
        = (if st.curPedalState && !new then sweepRows st.pads
           else (st.pads, [])).2
          ++ (chanEventBlocks samples new 0
                (if st.curPedalState && !new then sweepRows st.pads
                 else (st.pads, [])).1).flatten
    ∧ (∀ k, (chanEventBlocks samples new 0
          (if st.curPedalState && !new then sweepRows st.pads
           else (st.pads, [])).1)[k]?
        = (((if st.curPedalState && !new then sweepRows st.pads
             else (st.pads, [])).1)[k]?).map
            (fun row => (doChannelRow (samples k) new row).2)) := by
  refine ⟨rfl, ?_, ?_⟩
  · rw [show (loopCycle new samples st).2
        = (if st.curPedalState && !new then sweepRows st.pads
           else (st.pads, [])).2
          ++ (doChannels samples new 0
                (if st.curPedalState && !new then sweepRows st.pads
                 else (st.pads, [])).1).2 from rfl,
      doChannels_events]
  · intro k
    rw [chanEventBlocks_getElem?]
    simp

/-- **C3**: the bulk-release sweep turns every active pad off with exactly
one NoteOff (taking no sample into account) and leaves inactive pads
untouched with no emission; a pad that is inactive after the sweep cannot
emit a NoteOff in the per-sample phase of the same cycle; on a falling
pedal edge the cycle's events are the sweep's followed by the channel
loop's; and on a rising edge or steady pedal level the sweep contributes
no state change and no event. -/
theorem pedal_falling_edge_release (new : Bool) (samples : Nat → Nat)
    (st : SysState) :
    (∀ p : Pad,
        (sweepPad p).2
            = (if p.active then [midi_send 0x90 p.note 0] else [])
        ∧ (sweepPad p).1.active = false
        ∧ (p.active = false → sweepPad p = (p, [])))
    ∧ (∀ (s : Nat) (h : Bool) (p : Pad), p.active = false →
        ((do_channel s p h).2).countP isNoteOff = 0)
    ∧ (st.curPedalState = true → new = false →
        (loopCycle new samples st).2
          = (sweepRows st.pads).2
            ++ (doChannels samples new 0 (sweepRows st.pads).1).2)
    ∧ ((st.curPedalState && !new) = false →
        loopCycle new samples st
          = ({ curPedalState := new,
               pads := (doChannels samples new 0 st.pads).1 },
             (doChannels samples new 0 st.pads).2)) := by
  refine ⟨?_, ?_, ?_, ?_⟩
  · intro p
    cases hpa : p.active <;> simp [sweepPad, hpa]
  · intro s h p hp
    rw [do_channel_countP_noteOff s p h, hp]
    simp
  · intro h1 h2
    simp [loopCycle, h1, h2]
  · intro hedge
    simp [loopCycle, hedge]

theorem pedal_falling_edge_release_witness :
    ((sweepPad { mkPad 53 with active := true }).2
        = [midi_send 0x90 53 0]
     ∧ (sweepPad { mkPad 53 with active := true }).1.active = false)
    ∧ ((do_channel 45 (mkPad 53) false).2).countP isNoteOff = 0
    ∧ (loopCycle false (fun _ => 0)
          { curPedalState := true, pads := pads }).2
        = (sweepRows pads).2
          ++ (doChannels (fun _ => 0) false 0 (sweepRows pads).1).2
    ∧ loopCycle true (fun _ => 0) initState
        = ({ curPedalState := true,
             pads := (doChannels (fun _ => 0) true 0 initState.pads).1 },
           (doChannels (fun _ => 0) true 0 initState.pads).2) :=
  ⟨⟨((pedal_falling_edge_release false (fun _ => 0)
        { curPedalState := true, pads := pads }).1
      { mkPad 53 with active := true }).1,
    ((pedal_falling_edge_release false (fun _ => 0)
        { curPedalState := true, pads := pads }).1
      { mkPad 53 with active := true }).2.1⟩,
   (pedal_falling_edge_release false (fun _ => 0)
      { curPedalState := true, pads := pads }).2.1 45 false (mkPad 53)
     rfl,
   (pedal_falling_edge_release false (fun _ => 0)
      { curPedalState := true, pads := pads }).2.2.1 rfl rfl,
   (pedal_falling_edge_release true (fun _ => 0) initState).2.2.2 rfl⟩

/-- **C9**: a per-channel update never changes the channel's `note`,
`minAmplitude` or padding fields (neither does the sweep, which also
keeps `curAmplitude`); row `k` after a cycle is a function of row `k`
before the cycle, its own sample and the pedal states alone; and both
row operations leave every column other than `COLUMN` untouched. -/
theorem config_immutable_and_channel_local (new : Bool)
    (samples : Nat → Nat) (st : SysState) :
    (∀ (s : Nat) (p : Pad) (h : Bool),
        (do_channel s p h).1.note = p.note
        ∧ (do_channel s p h).1.minAmplitude = p.minAmplitude
        ∧ (do_channel s p h).1.unused1 = p.unused1
        ∧ (do_channel s p h).1.unused2 = p.unused2)
    ∧ (∀ p : Pad,
        (sweepPad p).1.note = p.note
        ∧ (sweepPad p).1.minAmplitude = p.minAmplitude
        ∧ (sweepPad p).1.curAmplitude = p.curAmplitude)
    ∧ (∀ k, ((loopCycle new samples st).1.pads)[k]?
        = (st.pads[k]?).map (fun row =>
            (doChannelRow (samples k) new
              (if st.curPedalState && !new then (sweepRow row).1
               else row)).1))
    ∧ (∀ (row : List Pad) (s : Nat) (h : Bool) (j : Nat), j ≠ COLUMN →
        ((doChannelRow s h row).1)[j]? = row[j]?
        ∧ ((sweepRow row).1)[j]? = row[j]?) := by
  refine ⟨?_, ?_, ?_, ?_⟩
  · intro s p h
    exact do_channel_fields s p h
  · intro p
    exact ⟨(sweepPad_fields p).1, (sweepPad_fields p).2.1,
      (sweepPad_fields p).2.2.2.1⟩
  · intro k
    by_cases hedge : (st.curPedalState && !new) = true
    · rw [show (loopCycle new samples st).1.pads
            = (doChannels samples new 0
                (if st.curPedalState && !new then sweepRows st.pads
                 else (st.pads, [])).1).1 from rfl,
        if_pos hedge, doChannels_getElem?, sweepRows_getElem?,
        Option.map_map]
      simp [hedge]
      rfl
    · rw [show (loopCycle new samples st).1.pads
            = (doChannels samples new 0
                (if st.curPedalState && !new then sweepRows st.pads
                 else (st.pads, [])).1).1 from rfl,
        if_neg hedge, doChannels_getElem?]
      simp [hedge]
  · intro row s h j hj
    constructor
    · unfold doChannelRow
      cases hq : row[COLUMN]? with
      | none => rfl
      | some pad => exact List.getElem?_set_ne (fun hc => hj hc.symm)
    · unfold sweepRow
      cases hq : row[COLUMN]? with
      | none => rfl
      | some pad => exact List.getElem?_set_ne (fun hc => hj hc.symm)

theorem config_immutable_and_channel_local_witness :
    ((do_channel 45 (mkPad 53) false).1.note = 53
     ∧ (do_channel 45 (mkPad 53) false).1.minAmplitude = 30)
    ∧ ((doChannelRow 45 false [mkPad 53, mkPad 54, mkPad 0]).1)[1]?
        = some (mkPad 54) :=
  ⟨⟨((config_immutable_and_channel_local false (fun _ => 0) initState).1
      45 (mkPad 53) false).1,
    ((config_immutable_and_channel_local false (fun _ => 0) initState).1
      45 (mkPad 53) false).2.1⟩,
   ((config_immutable_and_channel_local false (fun _ => 0) initState).2.2.2
      [mkPad 53, mkPad 54, mkPad 0] 45 false 1 (by decide)).1⟩

/-- The scanned column's pad of a row has a non-zero note. -/
def colNoteNonzero (row : List Pad) : Bool :=
  match row[COLUMN]? with
  | some p => p.note != 0
  | none => true

/-- Invariant of one row: the pad the loop evaluates has a non-zero note,
and every note-0 pad in the row is inactive. -/
def goodRow (row : List Pad) : Bool :=
  colNoteNonzero row && row.all (fun p => p.note != 0 || !p.active)

/-- Invariant of the whole table. -/
def goodTable (t : List (List Pad)) : Bool := t.all goodRow

lemma rowUpdate_good (row : List Pad) (pad pad' : Pad)
    (evs : List MidiEvent) (hq : row[COLUMN]? = some pad)
    (hnote : pad'.note = pad.note)
    (hpitch : ∀ e ∈ evs, e.pitch = pad.note)
    (hg : goodRow row = true) :
    goodRow (row.set COLUMN pad') = true ∧ ∀ e ∈ evs, e.pitch ≠ 0 := by
  have hlt : COLUMN < row.length := (List.getElem?_eq_some.mp hq).1
  rw [goodRow, Bool.and_eq_true, List.all_eq_true] at hg
  have hcol : pad.note ≠ 0 := by
    have h := hg.1
    rw [colNoteNonzero, hq] at h
    simpa using h
  refine ⟨?_, fun e he => by rw [hpitch e he]; exact hcol⟩
  rw [goodRow, Bool.and_eq_true, List.all_eq_true]
  constructor
  · rw [colNoteNonzero, List.getElem?_set_eq_of_lt pad' hlt]
    simpa [hnote] using hcol
  · intro p hp
    rcases List.mem_or_eq_of_mem_set hp with hmem | heq
    · exact hg.2 p hmem
    · subst heq
      simp [hnote, hcol]

lemma sweepRow_good (row : List Pad) (hg : goodRow row = true) :
    goodRow (sweepRow row).1 = true
    ∧ ∀ e ∈ (sweepRow row).2, e.pitch ≠ 0 := by
  cases hq : row[COLUMN]? with
  | none => simp [sweepRow, hq, hg]
  | some pad =>
    have h := rowUpdate_good row pad (sweepPad pad).1 (sweepPad pad).2 hq
      (sweepPad_fields pad).1 (sweepPad_pitch pad) hg
    simpa [sweepRow, hq] using h

lemma doChannelRow_good (s : Nat) (h2 : Bool) (row : List Pad)
    (hg : goodRow row = true) :
    goodRow (doChannelRow s h2 row).1 = true
    ∧ ∀ e ∈ (doChannelRow s h2 row).2, e.pitch ≠ 0 := by
  cases hq : row[COLUMN]? with
  | none => simp [doChannelRow, hq, hg]
  | some pad =>
    have h := rowUpdate_good row pad (do_channel s pad h2).1
      (do_channel s pad h2).2 hq (do_channel_fields s pad h2).1
      (do_channel_pitch s pad h2) hg
    simpa [doChannelRow, hq] using h

lemma sweepRows_good :
    ∀ table : List (List Pad), goodTable table = true →
      goodTable (sweepRows table).1 = true
      ∧ ∀ e ∈ (sweepRows table).2, e.pitch ≠ 0 := by
  intro table
  induction table with
  | nil => intro hg; simp [sweepRows, goodTable]
  | cons row rest ih =>
    intro hg
    rw [goodTable, List.all_cons, Bool.and_eq_true] at hg
    have hr := sweepRow_good row hg.1
    have hrest := ih hg.2
    constructor
    · simp only [sweepRows, goodTable, List.all_cons, Bool.and_eq_true]
      exact ⟨hr.1, hrest.1⟩
    · intro e he
      simp only [sweepRows, List.mem_append] at he
      rcases he with h | h
      exacts [hr.2 e h, hrest.2 e h]

lemma doChannels_good (samples : Nat → Nat) (held : Bool) :
    ∀ (table : List (List Pad)) (i : Nat), goodTable table = true →
      goodTable (doChannels samples held i table).1 = true
      ∧ ∀ e ∈ (doChannels samples held i table).2, e.pitch ≠ 0 := by
  intro table
  induction table with
  | nil => intro i hg; simp [doChannels, goodTable]
  | cons row rest ih =>
    intro i hg
    rw [goodTable, List.all_cons, Bool.and_eq_true] at hg
    have hr := doChannelRow_good (samples i) held row hg.1
    have hrest := ih (i + 1) hg.2
    constructor
    · simp only [doChannels, goodTable, List.all_cons, Bool.and_eq_true]
      exact ⟨hr.1, hrest.1⟩
    · intro e he
      simp only [doChannels, List.mem_append] at he
      rcases he with h | h
      exacts [hr.2 e h, hrest.2 e h]

lemma loopCycle_good (new : Bool) (samples : Nat → Nat) (st : SysState)
    (hg : goodTable st.pads = true) :
    goodTable (loopCycle new samples st).1.pads = true
    ∧ ∀ e ∈ (loopCycle new samples st).2, e.pitch ≠ 0 := by
  by_cases hedge : (st.curPedalState && !new) = true
  · have hs := sweepRows_good st.pads hg
    have hc := doChannels_good samples new (sweepRows st.pads).1 0 hs.1
    constructor
    · simpa only [loopCycle, if_pos hedge] using hc.1
    · intro e he
      simp only [loopCycle, if_pos hedge, List.mem_append] at he
      rcases he with h | h
      exacts [hs.2 e h, hc.2 e h]
  · have hc := doChannels_good samples new st.pads 0 hg
    constructor
    · simpa only [loopCycle, if_neg hedge] using hc.1
    · intro e he
      simp only [loopCycle, if_neg hedge, List.mem_append,
        List.not_mem_nil, false_or] at he
      exact hc.2 e he

lemma run_good :
    ∀ (inputs : List (Bool × (Nat → Nat))) (st : SysState),
      goodTable st.pads = true →
      goodTable (run st inputs).1.pads = true
      ∧ ∀ e ∈ (run st inputs).2, e.pitch ≠ 0 := by
  intro inputs
  induction inputs with
  | nil =>
    intro st hg
    constructor
    · simpa [run] using hg
    · simp [run]
  | cons input rest ih =>
    obtain ⟨pd, sm⟩ := input
    intro st hg
    have h1 := loopCycle_good pd sm st hg
    have h2 := ih (loopCycle pd sm st).1 h1.1
    constructor
    · simpa only [run] using h2.1
    · intro e he
      simp only [run, List.mem_append] at he
      rcases he with h | h
      exacts [h1.2 e h, h2.2 e h]

/-- **C1**: whatever pedal levels and samples are fed over any number of
poll cycles, every pad with note 0 (the unused placeholder slots of the
table) stays inactive, and no emitted message ever carries pitch 0 — the
placeholder slots never emit anything. -/
theorem unused_channel_never_emits
    (inputs : List (Bool × (Nat → Nat))) :
    (∀ row ∈ (run initState inputs).1.pads, ∀ p ∈ row,
        p.note = 0 → p.active = false)
    ∧ ∀ e ∈ (run initState inputs).2, e.pitch ≠ 0 := by
  have hinit : goodTable initState.pads = true := by decide
  have h := run_good inputs initState hinit
  refine ⟨?_, h.2⟩
  intro row hrow p hp hnote
  have hg := h.1
  rw [goodTable, List.all_eq_true] at hg
  have hr := hg row hrow
  rw [goodRow, Bool.and_eq_true, List.all_eq_true] at hr
  have hpp := hr.2 p hp
  simpa [hnote] using hpp

theorem unused_channel_never_emits_witness :
    (mkPad 0).active = false ∧ (midi_send 0x90 53 0x7F).pitch ≠ 0 :=
  ⟨(unused_channel_never_emits [(false, fun _ => 45)]).1
      [{ mkPad 53 with active := true, curAmplitude := 45 }, mkPad 54,
        mkPad 0]
      (by decide) (mkPad 0) (by decide) rfl,
   (unused_channel_never_emits [(false, fun _ => 45)]).2
      (midi_send 0x90 53 0x7F) (by decide)⟩

end MidiVibes
